import Mathlib

/-!
Verification of the URL/attribute normalization pipeline of the ekantipur
scraper (src/scraper.py).

The scraper's core logic is three pure helper functions
(first_url_from_srcset, resolve_to_absolute, unwrap_thumb_php), the
Python or-idiom fallback chains over optional attribute values, and the
per-entity record assembly inside main.  These are shallowly embedded
below.  The helpers delegate to CPython's urllib.parse (urljoin, urlparse,
parse_qs, unquote); the relevant parts of that library (CPython 3.10's
urllib/parse.py) are embedded as well, since the behaviour of the scraper
is inseparable from them.  Python strings are Lean Strings, processed as
their List Char data; Python None-or-str values are Option String;
functions that can raise ValueError return Except String.

Modelling notes, all marked again at the definitions concerned:
- unicodedata-based checks of urllib (the NFKC confusable-character check
  of checknetloc for non-ASCII authorities, added for CVE-2019-9636) are
  not modelled; the embedded checknetloc implements the ASCII fast path.
  No theorem below quantifies over non-ASCII authorities.
- The DOM/browser collaborator (playwright) is out of scope, as in the
  spec: record assembly takes the raw attribute values the collaborator
  would hand over (an optional string per attribute / per located text
  element, None meaning the element or attribute was absent).
-/

set_option maxRecDepth 20000

deriving instance DecidableEq for Except

namespace Scraper

/-! ## Python string primitives -/

/-- Code points for which CPython str.isspace is true; str.strip() with no
argument removes exactly these characters from both ends. -/
def pySpaceCodes : List Nat :=
  [0x9, 0xa, 0xb, 0xc, 0xd, 0x1c, 0x1d, 0x1e, 0x1f, 0x20, 0x85, 0xa0,
   0x1680, 0x2000, 0x2001, 0x2002, 0x2003, 0x2004, 0x2005, 0x2006, 0x2007,
   0x2008, 0x2009, 0x200a, 0x2028, 0x2029, 0x202f, 0x205f, 0x3000]

def pyIsSpace (c : Char) : Bool := pySpaceCodes.contains c.toNat

/-- Python str.strip() on the character-list representation. -/
def pyStripList (l : List Char) : List Char :=
  ((l.dropWhile pyIsSpace).reverse.dropWhile pyIsSpace).reverse

/-- Python str.strip() with no arguments. -/
def pyStrip (s : String) : String := ⟨pyStripList s.data⟩

/-- Truthiness of a Python str-or-None value: None and the empty string
are falsy, every other string is truthy (whitespace-only included). -/
def pyTruthy : Option String → Bool
  | none => false
  | some s => !(s == "")

/-- Python's a or b on str-or-None values: returns a if truthy, else b. -/
def pyOr (a b : Option String) : Option String := if pyTruthy a then a else b

/-- Python single-character str.split(sep) (always returns at least one,
possibly empty, piece). -/
def splitOnCharAux (sep : Char) : List Char → List Char → List (List Char)
  | [], cur => [cur.reverse]
  | c :: rest, cur =>
    if c = sep then cur.reverse :: splitOnCharAux sep rest []
    else splitOnCharAux sep rest (c :: cur)

def splitOnChar (sep : Char) (l : List Char) : List (List Char) :=
  splitOnCharAux sep l []

/-- Python str.split() with no arguments: split on whitespace runs,
dropping empty tokens. -/
def splitWSAux : List Char → List Char → List (List Char)
  | [], cur => if cur.isEmpty then [] else [cur.reverse]
  | c :: rest, cur =>
    if pyIsSpace c then
      if cur.isEmpty then splitWSAux rest []
      else cur.reverse :: splitWSAux rest []
    else splitWSAux rest (c :: cur)

def pySplitWS (l : List Char) : List (List Char) := splitWSAux l []

/-- Is the first list a leading segment of the second. -/
def leadsWith : List Char → List Char → Bool
  | [], _ => true
  | _ :: _, [] => false
  | a :: as, b :: bs => a = b && leadsWith as bs

/-- Python str.endswith for the single-suffix form. -/
def pyEndsWith (s t : String) : Bool := leadsWith t.data.reverse s.data.reverse

/-- Split at the first occurrence of a character: Python
url.split(c, 1) when c occurs, (l, none) when it does not. -/
def splitOnceChar (c : Char) : List Char → List Char × Option (List Char)
  | [] => ([], none)
  | d :: rest =>
    if d = c then ([], some rest)
    else
      let r := splitOnceChar c rest
      (d :: r.1, r.2)

/-- Python str.find(c, start): first index of c at position start or
later, none when absent. -/
def findIdxFrom (l : List Char) (c : Char) (start : Nat) : Option Nat :=
  match (l.drop start).findIdx? (fun d => d = c) with
  | some j => some (start + j)
  | none => none

/-- Python str.rfind(c): last index of c, none when absent. -/
def rfindIdx (l : List Char) (c : Char) : Option Nat :=
  match l.reverse.findIdx? (fun d => d = c) with
  | some j => some (l.length - 1 - j)
  | none => none

/-! ## urllib.parse.unquote (percent-decoding)

CPython's unquote splits the input into maximal ASCII and non-ASCII runs;
each ASCII run is percent-decoded to bytes (unquote_to_bytes) and then
UTF-8-decoded with errors a replace handler; non-ASCII runs pass through
unchanged.  unquote is called with its defaults (encoding utf-8, errors
replace) everywhere in the code under study, via unquote itself and via
parse_qs. -/

def isHexDigitPy (c : Char) : Bool :=
  ('0' ≤ c && c ≤ '9') || ('a' ≤ c && c ≤ 'f') || ('A' ≤ c && c ≤ 'F')

def hexVal (c : Char) : Nat :=
  if '0' ≤ c && c ≤ '9' then c.toNat - '0'.toNat
  else if 'a' ≤ c && c ≤ 'f' then c.toNat - 'a'.toNat + 10
  else if 'A' ≤ c && c ≤ 'F' then c.toNat - 'A'.toNat + 10
  else 0

/-- urllib.parse.unquote_to_bytes on an ASCII run: every percent sign
followed by two hex digits becomes one byte, any other percent sign is
literal; plain chars contribute their (ASCII) byte. -/
def unquoteToBytes : List Char → List Nat
  | [] => []
  | [c] => [c.toNat]
  | [c, a] => c.toNat :: unquoteToBytes [a]
  | c :: a :: b :: rest =>
    if c = '%' && isHexDigitPy a && isHexDigitPy b then
      (16 * hexVal a + hexVal b) :: unquoteToBytes rest
    else c.toNat :: unquoteToBytes (a :: b :: rest)

/-- The replacement character U+FFFD produced by the replace error
handler. -/
def replChar : Char := '�'

def contByte (b : Nat) : Bool := 0x80 ≤ b && b ≤ 0xbf

/-- Permitted second byte of a three-byte sequence with lead byte b
(excludes overlong encodings and surrogates, as CPython does). -/
def cont2ForE (b b1 : Nat) : Bool :=
  if b = 0xe0 then 0xa0 ≤ b1 && b1 ≤ 0xbf
  else if b = 0xed then 0x80 ≤ b1 && b1 ≤ 0x9f
  else contByte b1

/-- Permitted second byte of a four-byte sequence with lead byte b. -/
def cont2ForF (b b1 : Nat) : Bool :=
  if b = 0xf0 then 0x90 ≤ b1 && b1 ≤ 0xbf
  else if b = 0xf4 then 0x80 ≤ b1 && b1 ≤ 0x8f
  else contByte b1

/-- UTF-8 decoding with CPython's replace error handler: one U+FFFD per
maximal subpart of an ill-formed sequence (the bytes of a valid prefix
are consumed together; an offending byte is reprocessed). -/
def utf8DecodeReplace : List Nat → List Char
  | [] => []
  | [b] =>
    if b ≤ 0x7f then [Char.ofNat b] else [replChar]
  | [b, b1] =>
    if b ≤ 0x7f then Char.ofNat b :: utf8DecodeReplace [b1]
    else if 0xc2 ≤ b && b ≤ 0xdf then
      if contByte b1 then [Char.ofNat ((b - 0xc0) * 64 + (b1 - 0x80))]
      else replChar :: utf8DecodeReplace [b1]
    else if 0xe0 ≤ b && b ≤ 0xef then
      if cont2ForE b b1 then [replChar]
      else replChar :: utf8DecodeReplace [b1]
    else if 0xf0 ≤ b && b ≤ 0xf4 then
      if cont2ForF b b1 then [replChar]
      else replChar :: utf8DecodeReplace [b1]
    else replChar :: utf8DecodeReplace [b1]
  | [b, b1, b2] =>
    if b ≤ 0x7f then Char.ofNat b :: utf8DecodeReplace [b1, b2]
    else if 0xc2 ≤ b && b ≤ 0xdf then
      if contByte b1 then
        Char.ofNat ((b - 0xc0) * 64 + (b1 - 0x80)) :: utf8DecodeReplace [b2]
      else replChar :: utf8DecodeReplace [b1, b2]
    else if 0xe0 ≤ b && b ≤ 0xef then
      if cont2ForE b b1 then
        if contByte b2 then
          [Char.ofNat ((b - 0xe0) * 4096 + (b1 - 0x80) * 64 + (b2 - 0x80))]
        else replChar :: utf8DecodeReplace [b2]
      else replChar :: utf8DecodeReplace [b1, b2]
    else if 0xf0 ≤ b && b ≤ 0xf4 then
      if cont2ForF b b1 then
        if contByte b2 then [replChar]
        else replChar :: utf8DecodeReplace [b2]
      else replChar :: utf8DecodeReplace [b1, b2]
    else replChar :: utf8DecodeReplace [b1, b2]
  | b :: b1 :: b2 :: b3 :: rest =>
    if b ≤ 0x7f then Char.ofNat b :: utf8DecodeReplace (b1 :: b2 :: b3 :: rest)
    else if 0xc2 ≤ b && b ≤ 0xdf then
      if contByte b1 then
        Char.ofNat ((b - 0xc0) * 64 + (b1 - 0x80)) :: utf8DecodeReplace (b2 :: b3 :: rest)
      else replChar :: utf8DecodeReplace (b1 :: b2 :: b3 :: rest)
    else if 0xe0 ≤ b && b ≤ 0xef then
      if cont2ForE b b1 then
        if contByte b2 then
          Char.ofNat ((b - 0xe0) * 4096 + (b1 - 0x80) * 64 + (b2 - 0x80)) ::
            utf8DecodeReplace (b3 :: rest)
        else replChar :: utf8DecodeReplace (b2 :: b3 :: rest)
      else replChar :: utf8DecodeReplace (b1 :: b2 :: b3 :: rest)
    else if 0xf0 ≤ b && b ≤ 0xf4 then
      if cont2ForF b b1 then
        if contByte b2 then
          if contByte b3 then
            Char.ofNat ((b - 0xf0) * 262144 + (b1 - 0x80) * 4096 +
                (b2 - 0x80) * 64 + (b3 - 0x80)) :: utf8DecodeReplace rest
          else replChar :: utf8DecodeReplace (b3 :: rest)
        else replChar :: utf8DecodeReplace (b2 :: b3 :: rest)
      else replChar :: utf8DecodeReplace (b1 :: b2 :: b3 :: rest)
    else replChar :: utf8DecodeReplace (b1 :: b2 :: b3 :: rest)

def isAsciiChar (c : Char) : Bool := c.toNat ≤ 0x7f

/-- Group a string into maximal runs of ASCII / non-ASCII characters,
tagging each run with whether it is ASCII (the regex-split of CPython's
unquote). -/
def groupAsciiAux : List Char → Bool → List Char → List (Bool × List Char)
  | [], k, cur => [(k, cur.reverse)]
  | c :: rest, k, cur =>
    if isAsciiChar c = k then groupAsciiAux rest k (c :: cur)
    else (k, cur.reverse) :: groupAsciiAux rest (isAsciiChar c) [c]

def groupAscii : List Char → List (Bool × List Char)
  | [] => []
  | c :: rest => groupAsciiAux rest (isAsciiChar c) [c]

/-- urllib.parse.unquote with its default encoding (utf-8) and errors
(replace): identity when no percent sign occurs, else percent-decode each
maximal ASCII run and pass non-ASCII runs through. -/
def pyUnquote (s : String) : String :=
  if s.data.contains '%' then
    ⟨(groupAscii s.data).flatMap fun kr =>
      if kr.1 then utf8DecodeReplace (unquoteToBytes kr.2) else kr.2⟩
  else s

/-! ## urllib.parse.parse_qsl / parse_qs -/

/-- Python name_value.split(sep, 1): the piece before the first equals
sign and, when one occurs, the piece after it. -/
def splitEqOnce (l : List Char) : List Char × Option (List Char) :=
  splitOnceChar '=' l

def plusToSpace (l : List Char) : List Char :=
  l.map fun c => if c = '+' then ' ' else c

/-- urllib.parse.parse_qsl with all defaults (keep_blank_values False,
strict_parsing False, separator the ampersand): pairs with no equals sign
or with an empty value are dropped; names and values have plus signs
turned into spaces and are percent-decoded. -/
def parseQsl (qs : String) : List (String × String) :=
  if qs = "" then []
  else
    (splitOnChar '&' qs.data).filterMap fun nameValue =>
      if nameValue.isEmpty then none
      else
        match splitEqOnce nameValue with
        | (_, none) => none
        | (name, some value) =>
          if value.isEmpty then none
          else
            some (pyUnquote ⟨plusToSpace name⟩, pyUnquote ⟨plusToSpace value⟩)

/-- The list parse_qs(query).get("src") or [] of the scraper: the values
whose (decoded) name is src, in order of appearance. -/
def qsSrcValues (query : String) : List String :=
  (parseQsl query).filterMap fun p => if p.1 = "src" then some p.2 else none

/-! ## urllib.parse.urlsplit / urlparse

Embedded from CPython 3.11's urllib/parse.py (WHATWG leading-control
stripping and tab/CR/LF removal included).  The only ValueError raised
here is the mismatched-bracket Invalid IPv6 URL error of urlsplit.  Two
checks that need unicodedata / ipaddress are not modelled: the NFKC
confusable check of checknetloc (which can reject some non-ASCII
authorities; the embedding takes its ASCII fast path for all inputs) and
the bracketed-host validation (which only fires when the authority
contains both brackets).  No theorem below quantifies over inputs where
either could fire: universally quantified statements about resolution
assume ASCII bracket-free inputs. -/

structure SplitResult where
  scheme : String
  netloc : String
  path : String
  query : String
  fragment : String
deriving DecidableEq, Repr

structure ParseResult where
  scheme : String
  netloc : String
  path : String
  params : String
  query : String
  fragment : String
deriving DecidableEq, Repr

def usesRelative : List String :=
  ["", "ftp", "http", "gopher", "nntp", "imap", "wais", "file", "https",
   "shttp", "mms", "prospero", "rtsp", "rtspu", "sftp", "svn", "svn+ssh",
   "ws", "wss"]

def usesNetloc : List String :=
  ["", "ftp", "http", "gopher", "nntp", "telnet", "imap", "wais", "file",
   "mms", "https", "shttp", "snews", "prospero", "rtsp", "rtspu", "rsync",
   "svn", "svn+ssh", "sftp", "nfs", "git", "git+ssh", "ws", "wss"]

def usesParams : List String :=
  ["", "ftp", "hdl", "prospero", "http", "imap", "https", "shttp", "rtsp",
   "rtspu", "sip", "sips", "mms", "sftp", "tel"]

def schemeCharsList : List Char :=
  "abcdefghijklmnopqrstuvwxyzABCDEFGHIJKLMNOPQRSTUVWXYZ0123456789+-.".data

def isSchemeChar (c : Char) : Bool := schemeCharsList.contains c

/-- Removal of the unsafe bytes tab, CR and LF anywhere in the URL,
performed first by urlsplit. -/
def removeCtlBytes (l : List Char) : List Char :=
  l.filter fun c => !(c == '\t') && !(c == '\r') && !(c == '\n')

/-- Stripping of leading WHATWG C0-control-or-space characters (code
points up to 0x20), performed by urlsplit on the URL argument. -/
def whatwgLstrip (l : List Char) : List Char :=
  l.dropWhile fun c => c.toNat ≤ 0x20

/-- Both-ends variant, applied by urlsplit to the scheme argument. -/
def whatwgStrip (l : List Char) : List Char :=
  ((whatwgLstrip l).reverse.dropWhile fun c => c.toNat ≤ 0x20).reverse

/-- The scheme-extraction step of urlsplit: if a colon occurs at a
positive index, the first character is an ASCII letter and everything
before the colon is made of scheme characters, that prefix (lower-cased)
is the scheme and the remainder follows the colon; otherwise the default
scheme is kept and the URL is unchanged. -/
def splitScheme (u0 sch0 : List Char) : List Char × List Char :=
  match u0.findIdx? (fun c => c = ':') with
  | some i =>
    if 0 < i ∧ (u0.headD '0').isAlpha ∧ (u0.take i).all isSchemeChar then
      ((u0.take i).map Char.toLower, u0.drop (i + 1))
    else (sch0, u0)
  | none => (sch0, u0)

def notNetlocDelim (c : Char) : Bool := !(c == '/') && !(c == '?') && !(c == '#')

/-- Fragment and query extraction (allow_fragments is True at every call
site in the code under study), assembling the final SplitResult. -/
def mkSplit (sch netloc u2 : List Char) : SplitResult :=
  let fr := splitOnceChar '#' u2
  let u3 := fr.1
  let frag := fr.2.getD []
  let qr := splitOnceChar '?' u3
  ⟨⟨sch⟩, ⟨netloc⟩, ⟨qr.1⟩, ⟨(qr.2).getD []⟩, ⟨frag⟩⟩

/-- urllib.parse.urlsplit url scheme (allow_fragments True).  Raises
(returns Except.error) exactly the Invalid IPv6 URL ValueError, when the
authority contains a bracket without its partner. -/
def urlsplitE (url scheme : String) : Except String SplitResult :=
  let u0 := removeCtlBytes (whatwgLstrip url.data)
  let sch0 := removeCtlBytes (whatwgStrip scheme.data)
  let p := splitScheme u0 sch0
  match p.2 with
  | '/' :: '/' :: after =>
    let netloc := after.takeWhile notNetlocDelim
    let rest := after.dropWhile notNetlocDelim
    if (netloc.contains '[' && !(netloc.contains ']')) ||
        (netloc.contains ']' && !(netloc.contains '[')) then
      .error "Invalid IPv6 URL"
    else .ok (mkSplit p.1 netloc rest)
  | u1 => .ok (mkSplit p.1 [] u1)

/-- urllib.parse's splitparams helper: separates the params after the
semicolon of the last path segment. -/
def splitparamsL (l : List Char) : List Char × List Char :=
  let iOpt :=
    if l.contains '/' then
      match rfindIdx l '/' with
      | some r => findIdxFrom l ';' r
      | none => none
    else l.findIdx? fun d => d = ';'
  match iOpt with
  | none => (l, [])
  | some i => (l.take i, l.drop (i + 1))

/-- urllib.parse.urlparse url scheme: urlsplit plus params separation for
schemes that use params. -/
def urlparseE (url scheme : String) : Except String ParseResult :=
  match urlsplitE url scheme with
  | .error e => .error e
  | .ok s =>
    if usesParams.contains s.scheme ∧ s.path.data.contains ';' then
      let pp := splitparamsL s.path.data
      .ok ⟨s.scheme, s.netloc, ⟨pp.1⟩, ⟨pp.2⟩, s.query, s.fragment⟩
    else .ok ⟨s.scheme, s.netloc, s.path, "", s.query, s.fragment⟩

/-- urllib.parse.urlunsplit. -/
def urlunsplitStr (scheme netloc url query fragment : String) : String :=
  let url1 :=
    if netloc ≠ "" ∨ (url ≠ "" ∧ url.data.take 2 = ['/', '/']) then
      let url' := if url ≠ "" ∧ url.data.take 1 ≠ ['/'] then "/" ++ url else url
      "//" ++ netloc ++ url'
    else url
  let url2 := if scheme ≠ "" then scheme ++ ":" ++ url1 else url1
  let url3 := if query ≠ "" then url2 ++ "?" ++ query else url2
  if fragment ≠ "" then url3 ++ "#" ++ fragment else url3

/-- urllib.parse.urlunparse. -/
def urlunparseStr (scheme netloc url params query fragment : String) : String :=
  let url' := if params ≠ "" then url ++ ";" ++ params else url
  urlunsplitStr scheme netloc url' query fragment

/-- Python path.split(sep) for the slash, on Strings. -/
def splitSlash (s : String) : List String :=
  (splitOnChar '/' s.data).map fun l => ⟨l⟩

/-- The slice assignment segments[1:-1] = filter(None, segments[1:-1]) of
urljoin: empty interior segments are discarded, first and last kept. -/
def filterMiddle (l : List String) : List String :=
  match l with
  | [] => []
  | [x] => [x]
  | x :: xs => x :: ((xs.dropLast.filter fun s => s ≠ "") ++ [xs.getLastD ""])

/-- The dot-segment resolution loop of urljoin (a pop on an empty list is
silently ignored, matching the try/except IndexError). -/
def resolveSegs (segs : List String) : List String :=
  segs.foldl
    (fun acc seg =>
      if seg = ".." then acc.dropLast
      else if seg = "." then acc
      else acc ++ [seg])
    []

/-- The pure joining logic of urljoin once both URLs parsed. -/
def joinParsed (url : String) (b r : ParseResult) : String :=
  if r.scheme ≠ b.scheme ∨ ¬ usesRelative.contains r.scheme then url
  else
    let netloc :=
      if usesNetloc.contains r.scheme then
        (if r.netloc ≠ "" then r.netloc else b.netloc)
      else r.netloc
    if usesNetloc.contains r.scheme ∧ r.netloc ≠ "" then
      urlunparseStr r.scheme r.netloc r.path r.params r.query r.fragment
    else if r.path = "" ∧ r.params = "" then
      urlunparseStr r.scheme netloc b.path b.params
        (if r.query = "" then b.query else r.query) r.fragment
    else
      let baseParts0 := splitSlash b.path
      let baseParts :=
        if baseParts0.getLastD "" ≠ "" then baseParts0.dropLast else baseParts0
      let segments :=
        if r.path.data.take 1 = ['/'] then splitSlash r.path
        else filterMiddle (baseParts ++ splitSlash r.path)
      let resolved0 := resolveSegs segments
      let resolved :=
        if segments.getLastD "" = "." ∨ segments.getLastD "" = ".." then
          resolved0 ++ [""]
        else resolved0
      let joined := String.intercalate "/" resolved
      urlunparseStr r.scheme netloc (if joined = "" then "/" else joined)
        r.params r.query r.fragment

/-- urllib.parse.urljoin base url. -/
def urljoinE (base url : String) : Except String String :=
  if base = "" then .ok url
  else if url = "" then .ok base
  else
    match urlparseE base "" with
    | .error e => .error e
    | .ok b =>
      match urlparseE url b.scheme with
      | .error e => .error e
      | .ok r => .ok (joinParsed url b r)

/-! ## The scraper's helper functions (src/scraper.py lines 7-42) -/

/-- first_url_from_srcset (src/scraper.py lines 7-13): parse srcset and
return the first candidate URL, if any. -/
def firstUrlFromSrcset (srcset : Option String) : Option String :=
  match srcset with
  | none => none
  | some s =>
    if s = "" then none
    else
      let first := pyStrip ⟨(splitOnChar ',' s.data).headD []⟩
      if first = "" then none
      else
        match pySplitWS first.data with
        | t :: _ => some (pyStrip ⟨t⟩)
        | [] => none

/-- resolve_to_absolute (src/scraper.py lines 16-23): resolve relative or
protocol-relative URLs to an absolute URL.  A falsy candidate gives None;
a protocol-relative candidate is prefixed with the https scheme; anything
else goes through urljoin (which can raise, hence Except). -/
def resolveToAbsolute (baseUrl : String) (maybeUrl : Option String) :
    Except String (Option String) :=
  match maybeUrl with
  | none => .ok none
  | some s =>
    if s = "" then .ok none
    else
      let u := pyStrip s
      if u.data.take 2 = ['/', '/'] then .ok (some ("https:" ++ u))
      else
        match urljoinE baseUrl u with
        | .error e => .error e
        | .ok r => .ok (some r)

/-- The pure branch of unwrap_thumb_php once the stripped URL u has been
parsed: a non-thumb.php path keeps u; otherwise the first decoded src
query value is returned, u when there is none or when the decode is
empty. -/
def unwrapCore (u : String) (parsed : ParseResult) : String :=
  if ¬ pyEndsWith parsed.path "/thumb.php" then u
  else
    match qsSrcValues parsed.query with
    | [] => u
    | v :: _ => if pyUnquote v = "" then u else pyUnquote v

/-- unwrap_thumb_php (src/scraper.py lines 26-42): if the URL looks like
a thumb.php src wrapper, return the direct src URL, else the (stripped)
URL; falsy input gives None.  urlparse can raise, hence Except. -/
def unwrapThumbPhp (maybeThumbUrl : Option String) :
    Except String (Option String) :=
  match maybeThumbUrl with
  | none => .ok none
  | some s =>
    if s = "" then .ok none
    else
      let u := pyStrip s
      match urlparseE u "" with
      | .error e => .error e
      | .ok parsed => .ok (some (unwrapCore u parsed))

/-! ## Attribute fallback and record assembly (src/scraper.py main)

The spec's AttributeFallbackChain is the Python or-idiom over optional
attribute values used at src/scraper.py lines 85-96 and 165-182: take the
first truthy value, and treat a falsy result (None or empty string) as
absent. -/

/-- AttributeFallbackChain.first_present: the first candidate that is
non-None and non-empty, None when no candidate qualifies (the chained
Python or expressions followed by the if-not-src test). -/
def first_present : List (Option String) → Option String
  | [] => none
  | c :: cs => if pyTruthy c then c else first_present cs

/-- Raw attributes of an img element handed over by the DOM collaborator
(None meaning the attribute is absent). -/
structure ImgAttrs where
  src : Option String
  dataSrc : Option String
  dataOriginal : Option String
  dataLazy : Option String
  dataSrcset : Option String
  srcset : Option String
deriving DecidableEq, Repr

/-- The three-step image candidate selection of main (src/scraper.py
lines 85-96 for the cartoon, 165-182 for an article card): the src
attribute, else the lazy-load attributes chained with or, else the first
srcset candidate; absent img element (count zero) leaves the candidate
None. -/
def imageCandidate (img : Option ImgAttrs) : Option String :=
  match img with
  | none => none
  | some a =>
    let s1 := a.src
    let s2 :=
      if pyTruthy s1 then s1
      else pyOr (pyOr (pyOr a.dataSrc a.dataOriginal) a.dataLazy) a.dataSrcset
    if pyTruthy s2 then s2 else firstUrlFromSrcset a.srcset

/-- The strip-or-None idiom text = loc.inner_text().strip(); field = text
or None, with None when the element is absent (count zero). -/
def stripOrNone : Option String → Option String
  | none => none
  | some t => let s := pyStrip t; if s = "" then none else some s

/-- Category extraction for one article card (src/scraper.py lines
146-155): the stripped per-card label when a category element is found
and nonempty, else the fixed fallback label. -/
def extractCategory (categoryText : Option String) : String :=
  match stripOrNone categoryText with
  | some c => c
  | none => "मनोरञ्जन"

/-- A finished record: the Python dict literal, as an ordered
key/value-list with optional string values. -/
abbrev RecordKV := List (String × Option String)

/-- Raw data for the cartoon page: h1 text, img attributes, author-link
text (each None when the element is absent). -/
structure CartoonPage where
  h1Text : Option String
  img : Option ImgAttrs
  authorText : Option String
deriving DecidableEq, Repr

/-- Raw data for one article card.  The title locator's inner_text is
called unconditionally in the code, so the title text is not optional. -/
structure ArticleCard where
  titleText : String
  categoryText : Option String
  authorText : Option String
  img : Option ImgAttrs
deriving DecidableEq, Repr

/-- Assembly of the cartoon record (src/scraper.py lines 76-113): title,
image (candidate, resolved against the page URL, then unwrapped),
cartoonist. -/
def assembleCartoon (pageUrl : String) (cp : CartoonPage) :
    Except String RecordKV :=
  let cartoonTitle := stripOrNone cp.h1Text
  let cartoonSrc := imageCandidate cp.img
  match resolveToAbsolute pageUrl cartoonSrc with
  | .error e => .error e
  | .ok resolved =>
    match unwrapThumbPhp resolved with
    | .error e => .error e
    | .ok cartoonImageUrl =>
      let cartoonist := stripOrNone cp.authorText
      .ok [("title", cartoonTitle), ("image_url", cartoonImageUrl),
           ("cartoonist", cartoonist)]

/-- Assembly of one article record (src/scraper.py lines 137-193): the
title is stored stripped, the category defaulted, the author
strip-or-None, and the image candidate resolved against the page URL (no
unwrap step on this path). -/
def assembleArticle (pageUrl : String) (card : ArticleCard) :
    Except String RecordKV :=
  let title := pyStrip card.titleText
  let category := extractCategory card.categoryText
  let author := stripOrNone card.authorText
  let src := imageCandidate card.img
  match resolveToAbsolute pageUrl src with
  | .error e => .error e
  | .ok thumbnailUrl =>
    .ok [("title", some title), ("image_url", thumbnailUrl),
         ("category", some category), ("author", author)]

/-- The for i in range(5) loop: assemble the cards at the given indices
in order, propagating the first exception. -/
def assembleLoop (pageUrl : String) (cards : Nat → ArticleCard) :
    List Nat → Except String (List RecordKV)
  | [] => .ok []
  | i :: is =>
    match assembleArticle pageUrl (cards i) with
    | .error e => .error e
    | .ok r =>
      match assembleLoop pageUrl cards is with
      | .error e => .error e
      | .ok rs => .ok (r :: rs)

def assembleArticles (pageUrl : String) (cards : Nat → ArticleCard) :
    Except String (List RecordKV) :=
  assembleLoop pageUrl cards (List.range 5)

/-- The serialized top-level shape (src/scraper.py lines 196-199). -/
structure OutputData where
  cartoon : RecordKV
  entertainment_articles : List RecordKV
deriving DecidableEq, Repr

/-- End-to-end assembly of the output of main: the cartoon record from
the cartoon page, then the five article records from the entertainment
page. -/
def buildOutput (cartoonPageUrl : String) (cp : CartoonPage)
    (entPageUrl : String) (cards : Nat → ArticleCard) :
    Except String OutputData :=
  match assembleCartoon cartoonPageUrl cp with
  | .error e => .error e
  | .ok c =>
    match assembleArticles entPageUrl cards with
    | .error e => .error e
    | .ok arts => .ok ⟨c, arts⟩

/-- Strings whose characters are ASCII and contain no square bracket.
On such base URLs and candidates the resolution pipeline cannot raise:
the Invalid IPv6 URL error needs a bracket, and the unmodelled
non-ASCII-authority check of checknetloc needs a non-ASCII character. -/
def asciiNoBrackets (s : String) : Prop :=
  ∀ c ∈ s.data, c.toNat ≤ 0x7f ∧ c ≠ '[' ∧ c ≠ ']'

instance (s : String) : Decidable (asciiNoBrackets s) :=
  List.decidableBAll _ s.data

/-! ## Helper lemmas -/

theorem mem_pyStripList {a : Char} {l : List Char} (h : a ∈ pyStripList l) :
    a ∈ l := by
  unfold pyStripList at h
  rw [List.mem_reverse] at h
  have h2 := (List.dropWhile_sublist (l := (l.dropWhile pyIsSpace).reverse)
    (p := pyIsSpace)).mem h
  rw [List.mem_reverse] at h2
  exact (List.dropWhile_sublist (p := pyIsSpace)).mem h2

theorem mem_cleanChars {a : Char} {l : List Char}
    (h : a ∈ removeCtlBytes (whatwgLstrip l)) : a ∈ l := by
  have h1 : a ∈ whatwgLstrip l :=
    List.Sublist.mem h (List.filter_sublist (whatwgLstrip l))
  exact List.Sublist.mem h1 (List.dropWhile_sublist _)

theorem splitScheme_snd_mem {u0 sch0 : List Char} {a : Char}
    (h : a ∈ (splitScheme u0 sch0).2) : a ∈ u0 := by
  unfold splitScheme at h
  split at h
  · split at h
    · exact List.Sublist.mem h (List.drop_sublist _ _)
    · exact h
  · exact h

theorem urlsplitE_ok {url : String} (d : String)
    (h : ∀ c ∈ url.data, c ≠ '[' ∧ c ≠ ']') :
    ∃ r, urlsplitE url d = .ok r := by
  simp only [urlsplitE]
  split
  · next after heq =>
    split
    · next hcond =>
      exfalso
      have hmem : ∀ b ∈ after.takeWhile notNetlocDelim, b ∈ url.data := by
        intro b hb
        have h1 : b ∈ after := List.Sublist.mem hb (List.takeWhile_sublist _)
        have h2 : b ∈ ('/' :: '/' :: after) := by
          exact List.mem_cons_of_mem _ (List.mem_cons_of_mem _ h1)
        rw [← heq] at h2
        exact mem_cleanChars (splitScheme_snd_mem h2)
      rcases Bool.or_eq_true _ _ |>.mp hcond with h1 | h2
      · have hl := (Bool.and_eq_true _ _).mp h1 |>.1
        have : '[' ∈ after.takeWhile notNetlocDelim := List.elem_iff.mp hl
        exact ((h _ (hmem _ this)).1 rfl)
      · have hl := (Bool.and_eq_true _ _).mp h2 |>.1
        have : ']' ∈ after.takeWhile notNetlocDelim := List.elem_iff.mp hl
        exact ((h _ (hmem _ this)).2 rfl)
    · exact ⟨_, rfl⟩
  · exact ⟨_, rfl⟩

theorem urlparseE_ok {url : String} (d : String)
    (h : ∀ c ∈ url.data, c ≠ '[' ∧ c ≠ ']') :
    ∃ r, urlparseE url d = .ok r := by
  obtain ⟨r, hr⟩ := urlsplitE_ok d h
  simp only [urlparseE, hr]
  split
  · exact ⟨_, rfl⟩
  · exact ⟨_, rfl⟩

theorem urljoinE_ok {base url : String}
    (hb : ∀ c ∈ base.data, c ≠ '[' ∧ c ≠ ']')
    (hu : ∀ c ∈ url.data, c ≠ '[' ∧ c ≠ ']') :
    ∃ r, urljoinE base url = .ok r := by
  unfold urljoinE
  split
  · exact ⟨_, rfl⟩
  · split
    · exact ⟨_, rfl⟩
    · obtain ⟨b, hbp⟩ := urlparseE_ok "" hb
      simp only [hbp]
      obtain ⟨r, hrp⟩ := urlparseE_ok b.scheme hu
      simp only [hrp]
      exact ⟨_, rfl⟩

theorem pyStrip_no_brackets {s : String}
    (h : ∀ c ∈ s.data, c ≠ '[' ∧ c ≠ ']') :
    ∀ c ∈ (pyStrip s).data, c ≠ '[' ∧ c ≠ ']' :=
  fun c hc => h c (mem_pyStripList hc)

theorem stripOrNone_ne_empty {t : Option String} {a : String}
    (h : stripOrNone t = some a) : a ≠ "" := by
  cases t with
  | none => simp [stripOrNone] at h
  | some s =>
    simp only [stripOrNone] at h
    split at h
    · exact absurd h (by simp)
    · next hne =>
        have hpa : pyStrip s = a := Option.some.inj h
        intro he
        exact hne (hpa.trans he)

theorem extractCategory_ne_empty (ct : Option String) :
    extractCategory ct ≠ "" := by
  unfold extractCategory
  cases h : stripOrNone ct with
  | none => decide
  | some c => exact stripOrNone_ne_empty h

theorem unwrapThumbPhp_not_wrapper {s : String} {pr : ParseResult}
    (hs : s ≠ "") (hp : urlparseE (pyStrip s) "" = .ok pr)
    (hend : pyEndsWith pr.path "/thumb.php" = false) :
    unwrapThumbPhp (some s) = .ok (some (pyStrip s)) := by
  simp [unwrapThumbPhp, unwrapCore, hs, hp, hend]

theorem assembleArticle_ok_inv {pageUrl : String} {card : ArticleCard}
    {r : RecordKV} (h : assembleArticle pageUrl card = .ok r) :
    ∃ u, resolveToAbsolute pageUrl (imageCandidate card.img) = .ok u ∧
      r = [("title", some (pyStrip card.titleText)), ("image_url", u),
           ("category", some (extractCategory card.categoryText)),
           ("author", stripOrNone card.authorText)] := by
  simp only [assembleArticle] at h
  cases hr : resolveToAbsolute pageUrl (imageCandidate card.img) with
  | error e => rw [hr] at h; exact Except.noConfusion h
  | ok u => rw [hr] at h; exact ⟨u, rfl, (Except.ok.inj h).symm⟩

theorem assembleCartoon_ok_inv {pageUrl : String} {cp : CartoonPage}
    {r : RecordKV} (h : assembleCartoon pageUrl cp = .ok r) :
    ∃ u w, resolveToAbsolute pageUrl (imageCandidate cp.img) = .ok u ∧
      unwrapThumbPhp u = .ok w ∧
      r = [("title", stripOrNone cp.h1Text), ("image_url", w),
           ("cartoonist", stripOrNone cp.authorText)] := by
  simp only [assembleCartoon] at h
  cases hr : resolveToAbsolute pageUrl (imageCandidate cp.img) with
  | error e => rw [hr] at h; exact Except.noConfusion h
  | ok u =>
    rw [hr] at h
    simp only [] at h
    cases hw : unwrapThumbPhp u with
    | error e => rw [hw] at h; exact Except.noConfusion h
    | ok w => rw [hw] at h; exact ⟨u, w, rfl, hw, (Except.ok.inj h).symm⟩

theorem assembleLoop_ok {pageUrl : String} {cards : Nat → ArticleCard}
    {is : List Nat} {l : List RecordKV}
    (h : assembleLoop pageUrl cards is = .ok l) :
    l.length = is.length ∧
    ∀ r ∈ l, r.map Prod.fst = ["title", "image_url", "category", "author"] := by
  induction is generalizing l with
  | nil =>
    have he : l = [] := (Except.ok.inj h).symm
    subst he
    exact ⟨rfl, by intro r hr; cases hr⟩
  | cons i is ih =>
    simp only [assembleLoop] at h
    cases ha : assembleArticle pageUrl (cards i) with
    | error e => rw [ha] at h; exact Except.noConfusion h
    | ok r0 =>
      rw [ha] at h
      simp only [] at h
      cases hl : assembleLoop pageUrl cards is with
      | error e => rw [hl] at h; exact Except.noConfusion h
      | ok rs =>
        rw [hl] at h
        simp only [] at h
        have he : r0 :: rs = l := Except.ok.inj h
        subst he
        obtain ⟨hlen, hkeys⟩ := ih hl
        obtain ⟨u, _, hr0⟩ := assembleArticle_ok_inv ha
        refine ⟨by simp [hlen], ?_⟩
        intro r hr
        rcases List.mem_cons.mp hr with h1 | h2
        · subst h1; subst hr0; rfl
        · exact hkeys r h2

/-! ## Claims -/

/-- Claim C2, counterexample: the fallback chain does not trim.  On the
spec's own example list the Python or-idiom selects the whitespace-only
candidate (which is truthy), not the string value. -/
theorem claim_C2_counterexample :
    first_present [none, some "", some "  ", some "value"] = some "  " ∧
    first_present [none, some "", some "  ", some "value"] ≠ some "value" := by
  constructor
  · decide
  · decide

/-- Claim C2 as amended: for every ordered sequence of optional string
candidates, the attribute fallback chain returns the first candidate that
is non-None and non-empty, with no trimming, so a whitespace-only
candidate is selected rather than skipped; it returns None when no
candidate is non-None and non-empty.  Stated as: the chain equals the
first-hit search for a truthy candidate. -/
theorem claim_C2_amended (cs : List (Option String)) :
    first_present cs = cs.findSome? (fun c => if pyTruthy c then c else none) := by
  induction cs with
  | nil => rfl
  | cons c cs ih =>
    by_cases hc : pyTruthy c = true
    · cases c with
      | none => simp [pyTruthy] at hc
      | some s => simp [first_present, List.findSome?_cons, hc]
    · simp only [Bool.not_eq_true] at hc
      cases c with
      | none => simp [first_present, List.findSome?_cons, hc, ih, pyTruthy]
      | some s => simp [first_present, List.findSome?_cons, hc, ih]

/-- Claim C3, counterexample: a whitespace-only candidate is truthy in
Python, so it is not mapped to None; it is stripped to the empty string
and urljoin returns the base URL unchanged. -/
theorem claim_C3_counterexample :
    resolveToAbsolute "https://ekantipur.com/entertainment" (some "  ") =
      .ok (some "https://ekantipur.com/entertainment") ∧
    resolveToAbsolute "https://ekantipur.com/entertainment" (some "  ") ≠
      .ok none := by
  constructor
  · decide
  · decide

/-- Claim C3 as amended: resolve_to_absolute returns None exactly when
the candidate is None or the empty string; a candidate consisting only of
whitespace is instead stripped to the empty string and resolved to the
base URL itself. -/
theorem claim_C3_amended (baseUrl : String) (c : Option String) :
    (resolveToAbsolute baseUrl c = .ok none ↔ c = none ∨ c = some "") ∧
    (∀ s, c = some s → s ≠ "" → pyStrip s = "" →
      resolveToAbsolute baseUrl c = .ok (some baseUrl)) := by
  constructor
  · constructor
    · intro h
      cases c with
      | none => exact Or.inl rfl
      | some s =>
        by_cases hs : s = ""
        · exact Or.inr (by rw [hs])
        · exfalso
          simp only [resolveToAbsolute, hs, if_false] at h
          split at h
          · exact Option.noConfusion (Except.ok.inj h)
          · split at h
            · exact Except.noConfusion h
            · exact Option.noConfusion (Except.ok.inj h)
    · intro h
      cases h with
      | inl h => rw [h]; rfl
      | inr h => rw [h]; rfl
  · intro s hcs hs hstrip
    subst hcs
    simp only [resolveToAbsolute, hs, if_false, hstrip]
    have h2 : ("" : String).data.take 2 ≠ ['/', '/'] := by decide
    rw [if_neg h2]
    unfold urljoinE
    by_cases hb : baseUrl = ""
    · subst hb; rfl
    · simp [hb]

/-- Claim C3 witness: instantiation of the amended statement on a
whitespace-only candidate. -/
theorem claim_C3_witness :
    resolveToAbsolute "https://x.example/p" (some " \t ") =
      .ok (some "https://x.example/p") :=
  (claim_C3_amended "https://x.example/p" (some " \t ")).2 " \t " rfl
    (by decide) (by decide)

/-- Claim C4, confirmed: whenever the stripped candidate starts with two
slashes, resolve_to_absolute returns it prefixed with the https scheme,
for every base URL (the base, and in particular its scheme, is not
consulted on this path). -/
theorem claim_C4 (baseUrl : String) (s : String)
    (h : (pyStrip s).data.take 2 = ['/', '/']) :
    resolveToAbsolute baseUrl (some s) = .ok (some ("https:" ++ pyStrip s)) := by
  have hs : ¬ s = "" := by
    intro he; subst he; exact absurd h (by decide)
  simp [resolveToAbsolute, hs, h]

/-- Claim C4 witness: a protocol-relative candidate against an http base
still resolves with the https scheme. -/
theorem claim_C4_witness :
    resolveToAbsolute "http://base.example/a" (some "//host/path") =
      .ok (some "https://host/path") :=
  (claim_C4 "http://base.example/a" "//host/path" (by decide)).trans (by decide)

/-- Claim C5, counterexample: unwrap_thumb_php maps the empty string
(which is non-None) to None, and it strips its input, so a non-wrapper
URL with surrounding whitespace is not returned unchanged. -/
theorem claim_C5_counterexample :
    (unwrapThumbPhp (some "") = .ok none ∧ (some "" : Option String) ≠ none) ∧
    (unwrapThumbPhp (some " https://a/b.jpg ") = .ok (some "https://a/b.jpg") ∧
      (" https://a/b.jpg " : String) ≠ "https://a/b.jpg") := by
  refine ⟨⟨by decide, by decide⟩, by decide, by decide⟩

/-- Claim C5 as amended: unwrap_thumb_php returns None exactly when its
input is None or the empty string; for any other input it operates on the
stripped URL u: if the parsed path of u does not end with the thumb.php
segment it returns u (the stripped, not the original, URL); if it does,
it returns the percent-decoded first src query value, falling back to u
when the src parameter is absent or when the decode yields the empty
string. -/
theorem claim_C5_amended :
    (unwrapThumbPhp none = .ok none ∧ unwrapThumbPhp (some "") = .ok none) ∧
    (∀ s pr, s ≠ "" → urlparseE (pyStrip s) "" = .ok pr →
      pyEndsWith pr.path "/thumb.php" = false →
      unwrapThumbPhp (some s) = .ok (some (pyStrip s))) ∧
    (∀ s pr, s ≠ "" → urlparseE (pyStrip s) "" = .ok pr →
      pyEndsWith pr.path "/thumb.php" = true → qsSrcValues pr.query = [] →
      unwrapThumbPhp (some s) = .ok (some (pyStrip s))) ∧
    (∀ s pr v vs, s ≠ "" → urlparseE (pyStrip s) "" = .ok pr →
      pyEndsWith pr.path "/thumb.php" = true → qsSrcValues pr.query = v :: vs →
      unwrapThumbPhp (some s) =
        .ok (some (if pyUnquote v = "" then pyStrip s else pyUnquote v))) := by
  refine ⟨⟨rfl, rfl⟩, ?_, ?_, ?_⟩
  · intro s pr hs hp hend
    exact unwrapThumbPhp_not_wrapper hs hp hend
  · intro s pr hs hp hend hsrc
    simp [unwrapThumbPhp, unwrapCore, hs, hp, hend, hsrc]
  · intro s pr v vs hs hp hend hsrc
    simp [unwrapThumbPhp, unwrapCore, hs, hp, hend, hsrc]

/-- Claim C5 witness: instantiation of the non-wrapper case of the
amended statement on a direct image URL. -/
theorem claim_C5_witness :
    unwrapThumbPhp (some "https://site.com/images/pic.jpg") =
      .ok (some "https://site.com/images/pic.jpg") :=
  (claim_C5_amended.2.1 "https://site.com/images/pic.jpg"
      ⟨"https", "site.com", "/images/pic.jpg", "", "", ""⟩
      (by decide) (by decide) (by decide)).trans (by decide)

/-- Claim C6, counterexample: a doubly wrapped URL is not a fixed point
of unwrap_thumb_php after one application.  Because parse_qs already
percent-decodes the src value once and the code decodes it again, one
application of unwrap turns the nested wrapper into a wrapper with a
plainly readable src; a second application unwraps that one too, so the
first output is not a fixed point. -/
theorem claim_C6_counterexample :
    unwrapThumbPhp (some "https://s.com/thumb.php?src=https%3A%2F%2Fs.com%2Fthumb.php%3Fsrc%3Dhttps%253A%252F%252Fs.com%252Fi.jpg") =
      .ok (some "https://s.com/thumb.php?src=https://s.com/i.jpg") ∧
    unwrapThumbPhp (some "https://s.com/thumb.php?src=https://s.com/i.jpg") =
      .ok (some "https://s.com/i.jpg") ∧
    ("https://s.com/thumb.php?src=https://s.com/i.jpg" : String) ≠
      "https://s.com/i.jpg" := by
  refine ⟨by decide, by decide, by decide⟩

/-- Claim C6 as amended: an output of unwrap_thumb_php is a fixed point
provided it is nonempty, equal to its own strip, and not itself a
thumb.php wrapper path; an output extracted from a src parameter can
violate these (it may be a nested wrapper, or carry decoded whitespace)
and need not be a fixed point. -/
theorem claim_C6_amended (m : Option String) (s : String) (pr : ParseResult)
    (_hout : unwrapThumbPhp m = .ok (some s)) (hne : s ≠ "")
    (hstrip : pyStrip s = s) (hparse : urlparseE s "" = .ok pr)
    (hend : pyEndsWith pr.path "/thumb.php" = false) :
    unwrapThumbPhp (some s) = .ok (some s) := by
  have h := unwrapThumbPhp_not_wrapper hne (by rw [hstrip]; exact hparse) hend
  rw [hstrip] at h
  exact h

/-- Claim C6 witness: a directly produced plain image URL is a fixed
point. -/
theorem claim_C6_witness :
    unwrapThumbPhp (some "https://s.com/i.jpg") = .ok (some "https://s.com/i.jpg") :=
  claim_C6_amended (some "https://s.com/i.jpg") "https://s.com/i.jpg"
    ⟨"https", "s.com", "/i.jpg", "", "", ""⟩ (by decide) (by decide) (by decide)
    (by decide) (by decide)

/-- Claim C7, counterexample: an article card whose heading text is
whitespace-only produces a finished record that stores the empty string
in the title field; no error is raised and nothing in the record flags
the fault. -/
theorem claim_C7_counterexample :
    assembleArticle "https://ekantipur.com/entertainment"
      ⟨"   ", none, none, none⟩ =
      .ok [("title", some ""), ("image_url", none),
           ("category", some "मनोरञ्जन"), ("author", none)] := by
  decide

/-- Claim C7 as amended: the article title is stored as the stripped
heading text, which may be the empty string, and no fault is raised or
flagged for it; the remaining text fields do satisfy the claimed
invariant: author and cartoonist and cartoon title are None or nonempty,
and the category is always nonempty. -/
theorem claim_C7_amended :
    (∀ pageUrl card r, assembleArticle pageUrl card = .ok r →
      List.lookup "title" r = some (some (pyStrip card.titleText)) ∧
      (∀ a, List.lookup "author" r = some (some a) → a ≠ "") ∧
      (∀ c, List.lookup "category" r = some (some c) → c ≠ "")) ∧
    (∀ pageUrl cp r, assembleCartoon pageUrl cp = .ok r →
      (∀ t, List.lookup "title" r = some (some t) → t ≠ "") ∧
      (∀ a, List.lookup "cartoonist" r = some (some a) → a ≠ "")) := by
  constructor
  · intro pageUrl card r h
    obtain ⟨u, _, hr⟩ := assembleArticle_ok_inv h
    subst hr
    refine ⟨rfl, ?_, ?_⟩
    · intro a ha
      have : stripOrNone card.authorText = some a := by
        simpa [List.lookup] using ha
      exact stripOrNone_ne_empty this
    · intro c hc
      have : extractCategory card.categoryText = c := by
        have h2 := Option.some.inj (Option.some.inj (by simpa [List.lookup] using hc))
        exact h2
      exact this ▸ extractCategory_ne_empty card.categoryText
  · intro pageUrl cp r h
    obtain ⟨u, w, _, _, hr⟩ := assembleCartoon_ok_inv h
    subst hr
    constructor
    · intro t ht
      have : stripOrNone cp.h1Text = some t := by
        simpa [List.lookup] using ht
      exact stripOrNone_ne_empty this
    · intro a ha
      have : stripOrNone cp.authorText = some a := by
        simpa [List.lookup] using ha
      exact stripOrNone_ne_empty this

/-- Claim C7 witness: instantiation of the amended statement on a card
with a real title and a padded author name. -/
theorem claim_C7_witness :
    List.lookup "title"
      [("title", some "Title"), ("image_url", (none : Option String)),
       ("category", some "मनोरञ्जन"), ("author", some "A")] =
      some (some (pyStrip "Title")) :=
  (claim_C7_amended.1 "https://e.example/x" ⟨"Title", none, some " A ", none⟩
    [("title", some "Title"), ("image_url", none),
     ("category", some "मनोरञ्जन"), ("author", some "A")] (by decide)).1

/-- Claim C9, confirmed: an article card with no category element (or a
whitespace-only category text) is assembled with the fixed fallback label
as its category; with no image element involved the assembly is total, so
no exception arises from this path. -/
theorem claim_C9 :
    (∀ pageUrl card r, (card.categoryText = none ∨
        ∃ t, card.categoryText = some t ∧ pyStrip t = "") →
      assembleArticle pageUrl card = .ok r →
      List.lookup "category" r = some (some "मनोरञ्जन")) ∧
    (∀ pageUrl card, card.categoryText = none → card.img = none →
      assembleArticle pageUrl card = .ok
        [("title", some (pyStrip card.titleText)), ("image_url", none),
         ("category", some "मनोरञ्जन"), ("author", stripOrNone card.authorText)]) := by
  have hcat : ∀ ct : Option String,
      (ct = none ∨ ∃ t, ct = some t ∧ pyStrip t = "") →
      extractCategory ct = "मनोरञ्जन" := by
    intro ct hct
    rcases hct with h | ⟨t, h, ht⟩
    · subst h; rfl
    · subst h; simp [extractCategory, stripOrNone, ht]
  constructor
  · intro pageUrl card r hct h
    obtain ⟨u, _, hr⟩ := assembleArticle_ok_inv h
    subst hr
    simp [List.lookup, hcat card.categoryText hct]
  · intro pageUrl card hct himg
    simp [assembleArticle, himg, imageCandidate, resolveToAbsolute,
      hcat card.categoryText (Or.inl hct)]

/-- Claim C9 witness: a concrete card with no category element and no
image yields the fallback label and assembles without error. -/
theorem claim_C9_witness :
    assembleArticle "https://ekantipur.com/entertainment"
      ⟨"शीर्षक", none, none, none⟩ =
      .ok [("title", some (pyStrip "शीर्षक")), ("image_url", none),
           ("category", some "मनोरञ्जन"), ("author", stripOrNone none)] :=
  claim_C9.2 "https://ekantipur.com/entertainment"
    ⟨"शीर्षक", none, none, none⟩ rfl rfl

/-- Claim C1, counterexample: an article card whose src attribute is an
already absolute thumb.php wrapper URL keeps that wrapper, path ending in
the thumb.php segment included, in the finished record's image_url field:
the article path resolves but never unwraps. -/
theorem claim_C1_counterexample :
    assembleArticle "https://ekantipur.com/entertainment"
      ⟨"शीर्षक", none, none,
        some ⟨some "https://ekantipur.com/thumb.php?src=https%3A%2F%2Fekantipur.com%2Fx.jpg",
              none, none, none, none, none⟩⟩ =
      .ok [("title", some "शीर्षक"),
           ("image_url",
             some "https://ekantipur.com/thumb.php?src=https%3A%2F%2Fekantipur.com%2Fx.jpg"),
           ("category", some "मनोरञ्जन"), ("author", none)] ∧
    urlparseE "https://ekantipur.com/thumb.php?src=https%3A%2F%2Fekantipur.com%2Fx.jpg" "" =
      .ok ⟨"https", "ekantipur.com", "/thumb.php", "",
           "src=https%3A%2F%2Fekantipur.com%2Fx.jpg", ""⟩ ∧
    pyEndsWith "/thumb.php" "/thumb.php" = true := by
  refine ⟨by decide, by decide, by decide⟩

/-- Claim C1 as amended: the resolve-then-unwrap order holds on the
cartoon path only — the cartoon record's image_url is the unwrap of the
resolved candidate — while an article record's image_url is exactly the
resolved candidate with no unwrap step, so an absolute thumb.php URL in
an article card survives into the record. -/
theorem claim_C1_amended :
    (∀ pageUrl card u r,
      resolveToAbsolute pageUrl (imageCandidate card.img) = .ok u →
      assembleArticle pageUrl card = .ok r →
      List.lookup "image_url" r = some u) ∧
    (∀ pageUrl cp u w r,
      resolveToAbsolute pageUrl (imageCandidate cp.img) = .ok u →
      unwrapThumbPhp u = .ok w →
      assembleCartoon pageUrl cp = .ok r →
      List.lookup "image_url" r = some w) := by
  constructor
  · intro pageUrl card u r hu h
    obtain ⟨u2, hu2, hr⟩ := assembleArticle_ok_inv h
    have : u2 = u := Except.ok.inj (hu2.symm.trans hu)
    subst this
    subst hr
    rfl
  · intro pageUrl cp u w r hu hw h
    obtain ⟨u2, w2, hu2, hw2, hr⟩ := assembleCartoon_ok_inv h
    have he : u2 = u := Except.ok.inj (hu2.symm.trans hu)
    subst he
    have : w2 = w := Except.ok.inj (hw2.symm.trans hw)
    subst this
    subst hr
    rfl

/-- Claim C1 witness: instantiation of the article part of the amended
statement on a card with no image element. -/
theorem claim_C1_witness :
    List.lookup "image_url"
      [("title", some "T"), ("image_url", (none : Option String)),
       ("category", some "मनोरञ्जन"), ("author", (none : Option String))] =
      some none :=
  claim_C1_amended.1 "https://e.example/x" ⟨"T", none, none, none⟩ none
    [("title", some "T"), ("image_url", none),
     ("category", some "मनोरञ्जन"), ("author", none)] (by decide) (by decide)

/-- Claim C8, counterexample: resolve_to_absolute can raise.  A candidate
whose authority contains an opening bracket without a closing one makes
urljoin's URL parsing raise the Invalid IPv6 URL ValueError; there is no
best-effort fallback to the trimmed candidate. -/
theorem claim_C8_counterexample :
    resolveToAbsolute "https://ekantipur.com" (some "http://[oops") =
      .error "Invalid IPv6 URL" ∧
    ∀ r : Option String,
      resolveToAbsolute "https://ekantipur.com" (some "http://[oops") ≠ .ok r := by
  have he : resolveToAbsolute "https://ekantipur.com" (some "http://[oops") =
      .error "Invalid IPv6 URL" := by decide
  refine ⟨he, ?_⟩
  intro r h
  rw [he] at h
  exact Except.noConfusion h

/-- Claim C8 as amended: resolve_to_absolute terminates normally on every
base URL and candidate that are ASCII and contain no square bracket; a
mismatched bracket in a parsed authority raises ValueError instead, and
no parse-failure fallback returning the trimmed candidate exists. -/
theorem claim_C8_amended (baseUrl : String) (c : Option String)
    (hb : asciiNoBrackets baseUrl) (hc : ∀ s, c = some s → asciiNoBrackets s) :
    ∃ r, resolveToAbsolute baseUrl c = .ok r := by
  cases c with
  | none => exact ⟨none, rfl⟩
  | some s =>
    by_cases hs : s = ""
    · subst hs; exact ⟨none, rfl⟩
    · have hsb : ∀ ch ∈ s.data, ch ≠ '[' ∧ ch ≠ ']' :=
        fun ch hch => ((hc s rfl) ch hch).2
      have hbb : ∀ ch ∈ baseUrl.data, ch ≠ '[' ∧ ch ≠ ']' :=
        fun ch hch => (hb ch hch).2
      simp only [resolveToAbsolute, hs, if_false]
      split
      · exact ⟨_, rfl⟩
      · obtain ⟨r, hr⟩ := urljoinE_ok hbb (pyStrip_no_brackets hsb)
        rw [hr]
        exact ⟨_, rfl⟩

/-- Claim C8 witness: a plain relative candidate resolves without an
exception. -/
theorem claim_C8_witness :
    ∃ r, resolveToAbsolute "https://ekantipur.com/entertainment"
      (some "images/photo.jpg") = .ok r :=
  claim_C8_amended "https://ekantipur.com/entertainment"
    (some "images/photo.jpg") (by decide)
    (fun s hs => Option.some.inj hs ▸ (by decide : asciiNoBrackets "images/photo.jpg"))

/-- Claim C10, confirmed: whenever the program produces an output, the
entertainment articles are exactly five records, each a mapping with
exactly the keys title, image_url, category and author in that order, and
the cartoon record has exactly the keys title, image_url and cartoonist;
this holds for every combination of present or absent field values. -/
theorem claim_C10 (cartoonPageUrl : String) (cp : CartoonPage)
    (entPageUrl : String) (cards : Nat → ArticleCard) (out : OutputData)
    (h : buildOutput cartoonPageUrl cp entPageUrl cards = .ok out) :
    out.entertainment_articles.length = 5 ∧
    (∀ r ∈ out.entertainment_articles,
      r.map Prod.fst = ["title", "image_url", "category", "author"]) ∧
    out.cartoon.map Prod.fst = ["title", "image_url", "cartoonist"] := by
  simp only [buildOutput] at h
  cases hc : assembleCartoon cartoonPageUrl cp with
  | error e => rw [hc] at h; exact Except.noConfusion h
  | ok c =>
    rw [hc] at h
    simp only [] at h
    cases ha : assembleArticles entPageUrl cards with
    | error e => rw [ha] at h; exact Except.noConfusion h
    | ok arts =>
      rw [ha] at h
      simp only [] at h
      have he : (⟨c, arts⟩ : OutputData) = out := Except.ok.inj h
      subst he
      have ha2 : assembleLoop entPageUrl cards (List.range 5) = .ok arts := ha
      obtain ⟨hlen, hkeys⟩ := assembleLoop_ok ha2
      obtain ⟨u, w, _, _, hcr⟩ := assembleCartoon_ok_inv hc
      exact ⟨by simpa using hlen, hkeys, by subst hcr; rfl⟩

/-- Claim C10 witness: a concrete run with all fields absent still yields
five articles. -/
theorem claim_C10_witness :
    (⟨[("title", none), ("image_url", none), ("cartoonist", none)],
      List.replicate 5
        [("title", some "t"), ("image_url", none),
         ("category", some "मनोरञ्जन"), ("author", none)]⟩ :
      OutputData).entertainment_articles.length = 5 :=
  (claim_C10 "https://ekantipur.com/cartoon" ⟨none, none, none⟩
    "https://ekantipur.com/entertainment" (fun _ => ⟨"t", none, none, none⟩)
    ⟨[("title", none), ("image_url", none), ("cartoonist", none)],
      List.replicate 5
        [("title", some "t"), ("image_url", none),
         ("category", some "मनोरञ्जन"), ("author", none)]⟩ (by decide)).1

end Scraper
